import Mathlib

/-!
Shallow embedding of the `analysis_trifinger_simulation` repository:
`trifinger_simulation/gym_wrapper/envs/trifinger_reach.py` (class
`TriFingerReach`) and `python/trifinger_simulation/collision_objects.py`
(class `BaseCollisionObject`).

Python floats are modelled by exact rationals (ℚ), Python ints by ℤ.
Fallible Python code (assertions, division by zero, pybullet errors,
exceptions) is modelled with `Except PyError`.
-/

namespace TriFinger

/-- Exceptions that the modelled Python code can raise. -/
inductive PyError where
  | assertionError
  | zeroDivisionError
  | notConnectedError
  | genericError
deriving DecidableEq, Repr

/-- Python `int(x)` applied to a float: truncation toward zero. -/
def pyInt (q : ℚ) : ℤ := if q < 0 then -⌊-q⌋ else ⌊q⌋

/-- Python 3 `round(x)` with no digits argument: round half to even
(banker's rounding), returning an int. -/
def pyRound (q : ℚ) : ℤ :=
  if q - ⌊q⌋ < 1 / 2 then ⌊q⌋
  else if q - ⌊q⌋ > 1 / 2 then ⌊q⌋ + 1
  else if ⌊q⌋ % 2 = 0 then ⌊q⌋ else ⌊q⌋ + 1

/-! ### TriFingerReach.__init__ : control-rate check (trifinger_reach.py lines 91-100) -/

/-- Embeds `self.steps_per_control = int(round(control_rate_s / self.finger.time_step_s))`. -/
def steps_per_control (control_rate_s time_step_s : ℚ) : ℤ :=
  pyRound (control_rate_s / time_step_s)

/-- The construction-time assertion
`assert abs(control_rate_s - steps_per_control * time_step_s) <= 0.000001`,
returning the derived substep count when it passes and
`AssertionError` when it fails. -/
def checkControlRate (control_rate_s time_step_s : ℚ) : Except PyError ℤ :=
  let n := steps_per_control control_rate_s time_step_s
  if |control_rate_s - n * time_step_s| ≤ 1 / 1000000 then .ok n
  else .error .assertionError

/-! ### TriFingerReach.__init__ : smoothing setup (trifinger_reach.py lines 141-165) -/

/-- The `smoothing_params` dict passed to the constructor.  `is_test`
records whether the key `"is_test"` is present in the dict. -/
structure SmoothingParams where
  num_episodes : ℤ
  start_after : ℚ
  final_alpha : ℚ
  stop_after : ℚ
  is_test : Bool
deriving DecidableEq, Repr

/-- The smoothing configuration computed by the constructor.
`smoothing_stop_episode = none` models `math.inf` (the `is_test` branch). -/
structure SmoothingSchedule where
  smoothing_start_episode : ℤ
  smoothing_stop_episode : Option ℤ
  smoothing_alpha : ℚ
  smoothing_increase_step : ℚ
deriving DecidableEq, Repr

/-- The smoothing setup of `TriFingerReach.__init__`.  Without `is_test`,
`smoothing_increase_step = final_alpha / (stop - start)`; when the
denominator is zero Python raises `ZeroDivisionError`. -/
def initSmoothing (p : SmoothingParams) : Except PyError SmoothingSchedule :=
  if p.is_test then
    .ok { smoothing_start_episode := 0
          smoothing_stop_episode := none
          smoothing_alpha := p.final_alpha
          smoothing_increase_step := 0 }
  else
    let stop := pyInt ((p.num_episodes : ℚ) * p.stop_after)
    let start := pyInt ((p.num_episodes : ℚ) * p.start_after)
    let num_smoothing_increase_steps := stop - start
    if num_smoothing_increase_steps = 0 then .error .zeroDivisionError
    else
      .ok { smoothing_start_episode := start
            smoothing_stop_episode := some stop
            smoothing_alpha := 0
            smoothing_increase_step :=
              p.final_alpha / (num_smoothing_increase_steps : ℚ) }

/-! ### TriFingerReach.update_smoothing and the smoothing part of reset()
(trifinger_reach.py lines 337-340 and 369-384) -/

/-- The mutable smoothing state of the environment. -/
structure SmoothState where
  episode_count : ℤ
  smoothing_alpha : ℚ
deriving DecidableEq, Repr

/-- The chained comparison
`smoothing_start_episode <= episode_count < smoothing_stop_episode`
(where the stop bound may be `math.inf`). -/
def withinSmoothingWindow (sch : SmoothingSchedule) (count : ℤ) : Bool :=
  decide (sch.smoothing_start_episode ≤ count) &&
    (match sch.smoothing_stop_episode with
     | none => true
     | some stop => decide (count < stop))

/-- Embeds `TriFingerReach.update_smoothing`: bump `smoothing_alpha` by
`smoothing_increase_step` while the episode count is inside the window. -/
def update_smoothing (sch : SmoothingSchedule) (s : SmoothState) : SmoothState :=
  if withinSmoothingWindow sch s.episode_count then
    { s with smoothing_alpha := s.smoothing_alpha + sch.smoothing_increase_step }
  else s

/-- The smoothing-relevant part of `TriFingerReach.reset()`:
`self.update_smoothing()` followed by `self.episode_count += 1`. -/
def resetSmoothing (sch : SmoothingSchedule) (s : SmoothState) : SmoothState :=
  let s1 := update_smoothing sch s
  { episode_count := s1.episode_count + 1, smoothing_alpha := s1.smoothing_alpha }

/-- Smoothing state after `k` calls to `reset()`, starting from the
freshly constructed environment (`episode_count = 0`, alpha as set by
the constructor).  The constructor itself performs the first reset. -/
def smoothStateAfter (sch : SmoothingSchedule) : ℕ → SmoothState
  | 0 => { episode_count := 0, smoothing_alpha := sch.smoothing_alpha }
  | k + 1 => resetSmoothing sch (smoothStateAfter sch k)

/-! ### gym_wrapper.utils : scale / unscale
The `utils` module is code of this repository that is not under `src/`
(only its callers in `trifinger_reach.py` are), so it is modelled from
the spec. -/

/-- Modelled from the spec: one component of `utils.scale` — "linear
remapping of a physical quantity's range to [-1, 1]" by min-max
normalization (`utils` is not under src/). -/
def scale1 (x low high : ℚ) : ℚ := 2 * (x - low) / (high - low) - 1

/-- Modelled from the spec: one component of `utils.unscale` — the inverse
linear remapping from [-1, 1] back to the unscaled range
(`utils` is not under src/). -/
def unscale1 (y low high : ℚ) : ℚ := low + (y + 1) / 2 * (high - low)

/-- Modelled from the spec: `utils.scale` applied elementwise to a vector
with per-component bounds (`utils` is not under src/). -/
def scale : List ℚ → List ℚ → List ℚ → List ℚ
  | x :: xs, l :: ls, h :: hs => scale1 x l h :: scale xs ls hs
  | _, _, _ => []

/-- Modelled from the spec: `utils.unscale` applied elementwise to a vector
with per-component bounds (`utils` is not under src/). -/
def unscale : List ℚ → List ℚ → List ℚ → List ℚ
  | y :: ys, l :: ls, h :: hs => unscale1 y l h :: unscale ys ls hs
  | _, _, _ => []

/-! ### TriFingerReach.step (trifinger_reach.py lines 264-314)

External collaborators are passed as parameters: the robot proxy is a
stream of observations (`robot i` is the observation returned at the
`i`-th physics substep of the current environment step), the kinematics
library is a function `fk` from joint positions to the flattened
finger-tip positions, and `utils.compute_distance` (repository code not
under src/; per the spec, the Euclidean distance between the finger-tip
positions and the goal) is an abstract function `d`. -/

/-- A robot observation: joint positions and joint velocities. -/
structure RobotObservation where
  position : List ℚ
  velocity : List ℚ

/-- The parts of the `TriFingerReach` state that `step` reads or writes.
The bound lists are the low/high bounds of the unscaled action and
observation spaces. -/
structure ReachEnv where
  num_fingers : ℕ
  steps_per_control : ℕ
  smoothing_alpha : ℚ
  smoothed_action : Option (List ℚ)
  goal : List ℚ
  action_low : List ℚ
  action_high : List ℚ
  obs_low : List ℚ
  obs_high : List ℚ

/-- Embeds `TriFingerReach._get_state`: the flat observation list, the
concatenation of the slices for the fixed key order
`[joint_positions, joint_velocities, goal_position, action_joint_positions]`
(each of size `3 * num_fingers`). -/
def get_state (env : ReachEnv) (obs : RobotObservation) (action : List ℚ) : List ℚ :=
  obs.position ++ obs.velocity ++ env.goal ++ action

/-- Embeds `TriFingerReach._compute_reward`: extract the `joint_positions` slice
of the state (the first `3 * num_fingers` entries), apply forward
kinematics, and return `(-distance_to_goal * steps_per_control, False)`. -/
def compute_reward (env : ReachEnv) (fk : List ℚ → List ℚ)
    (d : List ℚ → List ℚ → ℚ) (state : List ℚ) (goal : List ℚ) : ℚ × Bool :=
  let joint_positions := state.take (3 * env.num_fingers)
  let end_effector_positions := fk joint_positions
  let distance_to_goal := d end_effector_positions goal
  (-distance_to_goal * (env.steps_per_control : ℚ), false)

/-- The control loop of `step`: the same action is applied for
`steps_per_control` substeps and `state` is taken from the first
iteration only (`if state is None`). -/
def stepLoopState (env : ReachEnv) (robot : ℕ → RobotObservation)
    (smoothed : List ℚ) : Option (List ℚ) :=
  (List.range env.steps_per_control).foldl
    (fun st i =>
      match st with
      | none => some (get_state env (robot i) smoothed)
      | some s => some s)
    none

/-- The 4-tuple returned by `step`; `is_success` is the value
`np.float32(done)` stored in the info dict. -/
structure StepResult where
  scaled_observation : List ℚ
  reward : ℚ
  done : Bool
  is_success : ℚ

/-- Embeds `TriFingerReach.step`: unscale the action, blend it with the previous
smoothed action (starting from the unscaled action itself when
`smoothed_action is None`), run the control loop, compute the reward and
return the scaled observation.  Returns `none` when the loop leaves
`state` as `None` (zero substeps), in which case Python would raise. -/
def step (env : ReachEnv) (fk : List ℚ → List ℚ) (d : List ℚ → List ℚ → ℚ)
    (robot : ℕ → RobotObservation) (action : List ℚ) :
    Option (ReachEnv × StepResult) :=
  let unscaled_action := unscale action env.action_low env.action_high
  let previous := env.smoothed_action.getD unscaled_action
  let smoothed := List.zipWith
    (fun p u => env.smoothing_alpha * p + (1 - env.smoothing_alpha) * u)
    previous unscaled_action
  match stepLoopState env robot smoothed with
  | none => none
  | some state =>
      let rd := compute_reward env fk d state env.goal
      some ({ env with smoothed_action := some smoothed },
            { scaled_observation := scale state env.obs_low env.obs_high
              reward := rd.1
              done := rd.2
              is_success := if rd.2 then 1 else 0 })

/-- The reward as the specification sentence words it, for comparison with
the embedded code: the negative sum, over all substeps, of the distance
between the finger-tip positions computed from the joint positions
observed at that substep and the goal, scaled by the substep count. -/
def specClaimReward (env : ReachEnv) (fk : List ℚ → List ℚ)
    (d : List ℚ → List ℚ → ℚ) (robot : ℕ → RobotObservation) : ℚ :=
  -((List.range env.steps_per_control).map
      (fun i => d (fk (robot i).position) env.goal)).sum
    * (env.steps_per_control : ℚ)

/-! ### collision_objects.BaseCollisionObject (collision_objects.py lines 64-118)

The pybullet simulation server is modelled as a world holding the set of
connected client ids and the bodies existing per client. -/

/-- The fields of a `BaseCollisionObject`: the body id and the pybullet
client id. -/
structure CollisionObject where
  object_id : ℤ
  pybullet_client_id : ℤ

/-- The modelled pybullet world: connected clients and the `(client, body)`
pairs currently in the simulation. -/
structure SimWorld where
  connected_clients : List ℤ
  bodies : List (ℤ × ℤ)

/-- Embeds `pybullet.isConnected(client_id)`. -/
def isConnected (w : SimWorld) (client : ℤ) : Bool :=
  client ∈ w.connected_clients

/-- Embeds `pybullet.removeBody(body, client)`: removes the body when the client
is connected, raises otherwise. -/
def removeBody (w : SimWorld) (body client : ℤ) : Except PyError SimWorld :=
  if isConnected w client then
    .ok { w with bodies := w.bodies.filter (fun p => !(p == (client, body))) }
  else .error .notConnectedError

/-- Embeds `BaseCollisionObject.__del__`: remove the object from the simulation
only if the simulation is still running. -/
def collisionObjectDel (w : SimWorld) (obj : CollisionObject) :
    Except PyError SimWorld :=
  if isConnected w obj.pybullet_client_id then
    removeBody w obj.object_id obj.pybullet_client_id
  else .ok w

/-! ### The synchronization path of TriFingerReach.reset
(trifinger_reach.py lines 323-335) -/

/-- Result of the synchronization prefix of `reset()`: whether
`utils.sleep_until` was executed, and the updated `next_start_time`. -/
structure ResetSyncResult where
  slept : Bool
  next_start_time : Option ℚ

/-- The synchronization path at the top of `reset()`: when
`next_start_time` is set, try to freeze the robot in place
(`append_desired_action` + `get_observation`, whose outcome is the
parameter `freeze_step`), swallow any exception from it, then sleep
until `next_start_time` and advance it by 4 seconds.  Timestamps are
seconds as rationals. -/
def resetSyncPhase (next_start_time : Option ℚ)
    (freeze_step : Except PyError RobotObservation) :
    Except PyError ResetSyncResult :=
  match next_start_time with
  | none => .ok { slept := false, next_start_time := none }
  | some t =>
      match freeze_step with
      | .ok _ => .ok { slept := true, next_start_time := some (t + 4) }
      | .error _ => .ok { slept := true, next_start_time := some (t + 4) }

/-! ## Theorems -/

/-- Rounding an integer value returns that integer. -/
theorem pyRound_natCast (k : ℕ) : pyRound ((k : ℚ)) = (k : ℤ) := by
  unfold pyRound
  rw [Int.floor_natCast]
  norm_num

/-- C4: for every control period that is an exact integer multiple `k` of
the robot's physics timestep, the derived substep count
`steps_per_control` equals `k` exactly. -/
theorem c4_exact_multiple_steps (k : ℕ) (time_step_s : ℚ) (h : 0 < time_step_s) :
    steps_per_control ((k : ℚ) * time_step_s) time_step_s = (k : ℤ) := by
  unfold steps_per_control
  rw [mul_div_assoc, div_self (ne_of_gt h), mul_one, pyRound_natCast]

/-- Witness for C4 at `k = 4`, `time_step_s = 1/250` (the 0.004 s
pybullet default). -/
theorem c4_exact_multiple_steps_witness :
    (0 : ℚ) < 1 / 250 ∧
      steps_per_control ((4 : ℕ) * (1 / 250 : ℚ)) (1 / 250) = 4 :=
  ⟨by norm_num, c4_exact_multiple_steps 4 (1 / 250) (by norm_num)⟩

/-- C3: construction fails with `AssertionError` exactly when the absolute
difference between `control_rate_s` and the derived substep count times
`time_step_s` exceeds `0.000001`; otherwise it passes and returns the
substep count. -/
theorem c3_control_rate_assertion (control_rate_s time_step_s : ℚ) :
    (checkControlRate control_rate_s time_step_s = .error .assertionError ↔
      1 / 1000000 <
        |control_rate_s -
          (steps_per_control control_rate_s time_step_s : ℚ) * time_step_s|) ∧
    (¬ 1 / 1000000 <
        |control_rate_s -
          (steps_per_control control_rate_s time_step_s : ℚ) * time_step_s| →
      checkControlRate control_rate_s time_step_s =
        .ok (steps_per_control control_rate_s time_step_s)) := by
  constructor
  · constructor
    · intro hfail
      by_contra hle
      push_neg at hle
      simp [checkControlRate, hle] at hfail
      linarith
    · intro hgt
      simp [checkControlRate]
      linarith
  · intro hle
    push_neg at hle
    simp [checkControlRate, hle]
    linarith

/-- Witness for C3: with `time_step_s = 1/250` (0.004 s) and
`control_rate_s = 3/500` (0.006 s) the derived substep count is 2
(banker's rounding of 1.5) and the residual `1/500` exceeds the
tolerance, so construction fails the assertion. -/
theorem c3_control_rate_assertion_witness :
    checkControlRate (3/500) (1/250) = .error .assertionError :=
  (c3_control_rate_assertion (3/500) (1/250)).1.mpr
    (by
      norm_num [steps_per_control, pyRound]
      rw [abs_of_pos (by norm_num : (0:ℚ) < 1/500)]
      norm_num)

/-- C10: when `"is_test"` is absent and
`int(num_episodes * stop_after) == int(num_episodes * start_after)`,
the constructor's smoothing setup raises `ZeroDivisionError`. -/
theorem c10_smoothing_zero_division (p : SmoothingParams)
    (htest : p.is_test = false)
    (heq : pyInt ((p.num_episodes : ℚ) * p.stop_after)
         = pyInt ((p.num_episodes : ℚ) * p.start_after)) :
    initSmoothing p = .error .zeroDivisionError := by
  rw [initSmoothing, if_neg (by simp [htest])]
  simp only [heq, sub_self, if_pos]

/-- Witness for C10 at `num_episodes = 10`, `start_after = stop_after = 1/2`,
`final_alpha = 1`. -/
theorem c10_smoothing_zero_division_witness :
    (SmoothingParams.mk 10 (1/2) 1 (1/2) false).is_test = false ∧
    pyInt (((SmoothingParams.mk 10 (1/2) 1 (1/2) false).num_episodes : ℚ) * (1/2))
      = pyInt (((SmoothingParams.mk 10 (1/2) 1 (1/2) false).num_episodes : ℚ) * (1/2)) ∧
    initSmoothing (SmoothingParams.mk 10 (1/2) 1 (1/2) false) = .error .zeroDivisionError :=
  ⟨rfl, rfl, c10_smoothing_zero_division _ rfl rfl⟩

/-- C7: destroying a collision object whose simulation client is no longer
connected performs no removal (the world is unchanged) and raises no
error. -/
theorem c7_del_after_disconnect (w : SimWorld) (obj : CollisionObject)
    (h : isConnected w obj.pybullet_client_id = false) :
    collisionObjectDel w obj = .ok w := by
  simp [collisionObjectDel, h]

/-- Witness for C7: a world with no connected clients and one stale body. -/
theorem c7_del_after_disconnect_witness :
    isConnected (SimWorld.mk [] [(0, 7)]) ((CollisionObject.mk 7 0).pybullet_client_id) = false ∧
    collisionObjectDel (SimWorld.mk [] [(0, 7)]) (CollisionObject.mk 7 0) =
      .ok (SimWorld.mk [] [(0, 7)]) :=
  ⟨rfl, c7_del_after_disconnect _ _ rfl⟩

/-- C8: in the synchronization path of `reset()`, any exception raised by
the freeze-in-place step is swallowed; execution proceeds to the
sleep-until-next-start-time wait, the next start time is advanced by 4
seconds, and no error is surfaced. -/
theorem c8_sync_swallows_freeze_exception (t : ℚ) (e : PyError) :
    resetSyncPhase (some t) (.error e) =
      .ok { slept := true, next_start_time := some (t + 4) } := rfl

/-- One component: unscaling a scaled value returns the original. -/
theorem unscale1_scale1 (x low high : ℚ) (h : low < high) :
    unscale1 (scale1 x low high) low high = x := by
  have hne : high - low ≠ 0 := sub_ne_zero.mpr (ne_of_gt h)
  unfold scale1 unscale1
  field_simp
  ring

/-- One component: scaling an unscaled value returns the original. -/
theorem scale1_unscale1 (y low high : ℚ) (h : low < high) :
    scale1 (unscale1 y low high) low high = y := by
  have hne : high - low ≠ 0 := sub_ne_zero.mpr (ne_of_gt h)
  unfold scale1 unscale1
  field_simp
  ring

/-- Vector version: `unscale ∘ scale` is the identity when every component
bound satisfies `low < high`. -/
theorem unscale_scale (x low high : List ℚ)
    (hb : List.Forall₂ (· < ·) low high) (hx : x.length = low.length) :
    unscale (scale x low high) low high = x := by
  induction hb generalizing x with
  | nil =>
      cases x with
      | nil => rfl
      | cons a as => simp at hx
  | cons h _ ih =>
      cases x with
      | nil => simp at hx
      | cons a as =>
          simp only [scale, unscale, unscale1_scale1 _ _ _ h, List.cons.injEq,
            true_and]
          exact ih as (by simpa using hx)

/-- Vector version: `scale ∘ unscale` is the identity when every component
bound satisfies `low < high`. -/
theorem scale_unscale (y low high : List ℚ)
    (hb : List.Forall₂ (· < ·) low high) (hy : y.length = low.length) :
    scale (unscale y low high) low high = y := by
  induction hb generalizing y with
  | nil =>
      cases y with
      | nil => rfl
      | cons a as => simp at hy
  | cons h _ ih =>
      cases y with
      | nil => simp at hy
      | cons a as =>
          simp only [scale, unscale, scale1_unscale1 _ _ _ h, List.cons.injEq,
            true_and]
          exact ih as (by simpa using hy)

/-- C5: for vectors matching the space's shape, `scale` followed by
`unscale` and `unscale` followed by `scale` both return the original
vector (exactly, in the exact-arithmetic model). -/
theorem c5_scale_unscale_mutual_inverses (x y low high : List ℚ)
    (hb : List.Forall₂ (· < ·) low high)
    (hx : x.length = low.length) (hy : y.length = low.length) :
    unscale (scale x low high) low high = x ∧
    scale (unscale y low high) low high = y :=
  ⟨unscale_scale x low high hb hx, scale_unscale y low high hb hy⟩

/-- Witness for C5 on concrete three-component vectors and bounds. -/
theorem c5_scale_unscale_mutual_inverses_witness :
    List.Forall₂ (· < ·) [-1, -2, (0 : ℚ)] [1, 3, (5 : ℚ)] ∧
    unscale (scale [0, 1, (2 : ℚ)] [-1, -2, 0] [1, 3, 5]) [-1, -2, 0] [1, 3, 5]
      = [0, 1, (2 : ℚ)] ∧
    scale (unscale [1, -1, (1/2 : ℚ)] [-1, -2, 0] [1, 3, 5]) [-1, -2, 0] [1, 3, 5]
      = [1, -1, (1/2 : ℚ)] := by
  have hb : List.Forall₂ (· < ·) [-1, -2, (0 : ℚ)] [1, 3, (5 : ℚ)] := by
    refine List.Forall₂.cons (by norm_num) (List.Forall₂.cons (by norm_num)
      (List.Forall₂.cons (by norm_num) List.Forall₂.nil))
  have h := c5_scale_unscale_mutual_inverses [0, 1, (2 : ℚ)] [1, -1, (1/2 : ℚ)]
    [-1, -2, 0] [1, 3, 5] hb (by simp) (by simp)
  exact ⟨hb, h.1, h.2⟩

/-- Blending a vector with itself with weights `α` and `1 - α` returns the
vector, for every `α`. -/
theorem zipWith_blend_self (α : ℚ) (l : List ℚ) :
    List.zipWith (fun p u => α * p + (1 - α) * u) l l = l := by
  induction l with
  | nil => rfl
  | cons a as ih =>
      simp only [List.zipWith, ih, List.cons.injEq, and_true]
      ring

/-- Once the loop state is set it is never overwritten. -/
theorem stepLoop_keep (env : ReachEnv) (robot : ℕ → RobotObservation)
    (smoothed : List ℚ) (l : List ℕ) (s : List ℚ) :
    List.foldl
      (fun st i =>
        match st with
        | none => some (get_state env (robot i) smoothed)
        | some s' => some s')
      (some s) l = some s := by
  induction l with
  | nil => rfl
  | cons a l ih =>
      simp only [List.foldl_cons]
      exact ih

/-- With at least one substep, the loop returns the state captured at the
first substep. -/
theorem stepLoopState_eq (env : ReachEnv) (robot : ℕ → RobotObservation)
    (smoothed : List ℚ) (hn : 1 ≤ env.steps_per_control) :
    stepLoopState env robot smoothed =
      some (get_state env (robot 0) smoothed) := by
  obtain ⟨m, hm⟩ : ∃ m, env.steps_per_control = m + 1 :=
    ⟨env.steps_per_control - 1, by omega⟩
  unfold stepLoopState
  rw [hm, List.range_succ_eq_map]
  simp only [List.foldl_cons]
  exact stepLoop_keep env robot smoothed _ _

/-- C9: on the first `step` after a `reset` (stored smoothed action is
`None`), the smoothed action issued to the robot equals the unscaled
input action, for every smoothing coefficient. -/
theorem c9_first_step_issues_unscaled_action (env : ReachEnv)
    (fk : List ℚ → List ℚ) (d : List ℚ → List ℚ → ℚ)
    (robot : ℕ → RobotObservation) (action : List ℚ)
    (hnone : env.smoothed_action = none)
    (hn : 1 ≤ env.steps_per_control) :
    ∃ e r, step env fk d robot action = some (e, r) ∧
      e.smoothed_action =
        some (unscale action env.action_low env.action_high) := by
  simp only [step, hnone, Option.getD_none]
  rw [zipWith_blend_self, stepLoopState_eq env robot _ hn]
  exact ⟨_, _, rfl, rfl⟩

/-- Witness for C9 on a concrete single-finger environment. -/
theorem c9_first_step_issues_unscaled_action_witness :
    (ReachEnv.mk 1 1 (1/3) none [0, 0, 0] [-1, -1, -1] [1, 1, 1]
        (List.replicate 12 (-2)) (List.replicate 12 2)).smoothed_action = none ∧
    1 ≤ (ReachEnv.mk 1 1 (1/3) none [0, 0, 0] [-1, -1, -1] [1, 1, 1]
        (List.replicate 12 (-2)) (List.replicate 12 2)).steps_per_control ∧
    ∃ e r,
      step (ReachEnv.mk 1 1 (1/3) none [0, 0, 0] [-1, -1, -1] [1, 1, 1]
          (List.replicate 12 (-2)) (List.replicate 12 2))
        (fun jp => jp) (fun _ _ => 0) (fun _ => RobotObservation.mk [0, 0, 0] [0, 0, 0])
        [0, 0, 0] = some (e, r) ∧
      e.smoothed_action = some (unscale [0, 0, 0] [-1, -1, -1] [1, 1, 1]) :=
  ⟨rfl, by norm_num,
    c9_first_step_issues_unscaled_action _ _ _ _ _ rfl (by norm_num)⟩

/-- C6: `step` always returns `done = False` and `is_success = 0`. -/
theorem c6_done_always_false (env : ReachEnv) (fk : List ℚ → List ℚ)
    (d : List ℚ → List ℚ → ℚ) (robot : ℕ → RobotObservation)
    (action : List ℚ) (hn : 1 ≤ env.steps_per_control) :
    ∃ e r, step env fk d robot action = some (e, r) ∧
      r.done = false ∧ r.is_success = 0 := by
  simp only [step]
  rw [stepLoopState_eq env robot _ hn]
  exact ⟨_, _, rfl, rfl, rfl⟩

/-- Witness for C6 on a concrete single-finger environment. -/
theorem c6_done_always_false_witness :
    1 ≤ (ReachEnv.mk 1 2 0 none [0, 0, 0] [-1, -1, -1] [1, 1, 1]
        (List.replicate 12 (-2)) (List.replicate 12 2)).steps_per_control ∧
    ∃ e r,
      step (ReachEnv.mk 1 2 0 none [0, 0, 0] [-1, -1, -1] [1, 1, 1]
          (List.replicate 12 (-2)) (List.replicate 12 2))
        (fun jp => jp) (fun _ _ => 0) (fun _ => RobotObservation.mk [0, 0, 0] [0, 0, 0])
        [0, 0, 0] = some (e, r) ∧
      r.done = false ∧ r.is_success = 0 :=
  ⟨by norm_num, c6_done_always_false _ _ _ _ _ (by norm_num)⟩

/-- C2 counterexample: on a single-finger environment with two substeps
where the joints observed at the second substep differ from those at the
first, the reward returned by the code is `0` while the claim's
per-substep sum (scaled by the substep count) is `-2`.  The distance
function used is the Euclidean distance for the points involved (they
differ only in their first coordinate). -/
theorem c2_reward_claim_counterexample :
    ((step
        (ReachEnv.mk 1 2 0 none [0, 0, 0] [-1, -1, -1] [1, 1, 1]
          (List.replicate 12 (-2)) (List.replicate 12 2))
        (fun jp => jp)
        (fun a b => |a.headI - b.headI|)
        (fun i => if i = 0 then RobotObservation.mk [0, 0, 0] [0, 0, 0]
                  else RobotObservation.mk [1, 0, 0] [0, 0, 0])
        [0, 0, 0]).map (fun p => p.2.reward)) = some 0 ∧
    specClaimReward
        (ReachEnv.mk 1 2 0 none [0, 0, 0] [-1, -1, -1] [1, 1, 1]
          (List.replicate 12 (-2)) (List.replicate 12 2))
        (fun jp => jp)
        (fun a b => |a.headI - b.headI|)
        (fun i => if i = 0 then RobotObservation.mk [0, 0, 0] [0, 0, 0]
                  else RobotObservation.mk [1, 0, 0] [0, 0, 0]) = -2 ∧
    (0 : ℚ) ≠ -2 := by
  refine ⟨?_, ?_, by norm_num⟩
  · norm_num [step, stepLoopState, get_state, compute_reward, unscale, unscale1,
      List.range_succ, List.foldl]
  · norm_num [specClaimReward, List.range_succ]

/-- C2 amended: the returned reward equals the negative distance between
the finger-tip positions computed (by forward kinematics) from the joint
positions observed at the FIRST substep and the goal, multiplied by the
substep count; observations from the later substeps do not enter the
reward. -/
theorem c2_reward_first_substep (env : ReachEnv) (fk : List ℚ → List ℚ)
    (d : List ℚ → List ℚ → ℚ) (robot : ℕ → RobotObservation)
    (action : List ℚ) (hn : 1 ≤ env.steps_per_control)
    (hlen : (robot 0).position.length = 3 * env.num_fingers) :
    ∃ e r, step env fk d robot action = some (e, r) ∧
      r.reward = -(d (fk ((robot 0).position)) env.goal)
        * (env.steps_per_control : ℚ) := by
  simp only [step]
  rw [stepLoopState_eq env robot _ hn]
  refine ⟨_, _, rfl, ?_⟩
  simp only [compute_reward, get_state, List.append_assoc]
  rw [List.take_left' hlen]

/-- Witness for C2 amended on a concrete single-finger environment. -/
theorem c2_reward_first_substep_witness :
    1 ≤ (ReachEnv.mk 1 2 (1/2) none [0, 0, 0] [-1, -1, -1] [1, 1, 1]
        (List.replicate 12 (-2)) (List.replicate 12 2)).steps_per_control ∧
    ((fun (_ : ℕ) => RobotObservation.mk [0, 1, (2 : ℚ)] [0, 0, 0]) 0).position.length
      = 3 * (ReachEnv.mk 1 2 (1/2) none [0, 0, 0] [-1, -1, -1] [1, 1, 1]
        (List.replicate 12 (-2)) (List.replicate 12 2)).num_fingers ∧
    ∃ e r,
      step (ReachEnv.mk 1 2 (1/2) none [0, 0, 0] [-1, -1, -1] [1, 1, 1]
          (List.replicate 12 (-2)) (List.replicate 12 2))
        (fun jp => jp) (fun a b => |a.headI - b.headI|)
        (fun _ => RobotObservation.mk [0, 1, (2 : ℚ)] [0, 0, 0])
        [0, 0, 0] = some (e, r) ∧
      r.reward = -((fun (a b : List ℚ) => |a.headI - b.headI|)
          ((fun (jp : List ℚ) => jp) [0, 1, (2 : ℚ)]) [0, 0, 0]) * (2 : ℚ) :=
  ⟨by norm_num, by norm_num,
    c2_reward_first_substep _ _ _ _ _ (by norm_num) (by norm_num)⟩

/-- Applying `update_smoothing` leaves the episode counter unchanged. -/
theorem update_smoothing_count (sch : SmoothingSchedule) (s : SmoothState) :
    (update_smoothing sch s).episode_count = s.episode_count := by
  unfold update_smoothing
  split <;> rfl

/-- The coefficient written by `update_smoothing`. -/
theorem update_smoothing_alpha (sch : SmoothingSchedule) (st : SmoothState) :
    (update_smoothing sch st).smoothing_alpha =
      if withinSmoothingWindow sch st.episode_count
      then st.smoothing_alpha + sch.smoothing_increase_step
      else st.smoothing_alpha := by
  unfold update_smoothing
  split <;> simp_all

/-- After `k` resets the episode counter is `k`. -/
theorem smoothStateAfter_count (sch : SmoothingSchedule) (k : ℕ) :
    (smoothStateAfter sch k).episode_count = (k : ℤ) := by
  induction k with
  | zero => simp [smoothStateAfter]
  | succ n ih =>
      simp only [smoothStateAfter, resetSmoothing, update_smoothing_count, ih]
      push_cast
      ring

/-- Closed form of the smoothing coefficient after `k` resets, for a
schedule with finite stop bound and `start ≤ stop`: the increase step is
applied once for each episode index in `[start, stop) ∩ [0, k)`. -/
theorem smoothStateAfter_alpha (sch : SmoothingSchedule) (s e : ℕ)
    (hs : sch.smoothing_start_episode = (s : ℤ))
    (he : sch.smoothing_stop_episode = some ((e : ℕ) : ℤ))
    (hse : s ≤ e) (k : ℕ) :
    (smoothStateAfter sch k).smoothing_alpha =
      sch.smoothing_alpha +
        sch.smoothing_increase_step * ((min k e - min k s : ℕ) : ℚ) := by
  induction k with
  | zero => simp [smoothStateAfter]
  | succ n ih =>
      have hcount := smoothStateAfter_count sch n
      have hwindow : withinSmoothingWindow sch
          ((smoothStateAfter sch n).episode_count) =
          (decide (s ≤ n) && decide (n < e)) := by
        rw [hcount]
        unfold withinSmoothingWindow
        rw [hs, he]
        by_cases h1 : s ≤ n <;> by_cases h2 : n < e <;>
          simp [h1, h2]
      have hproj : (smoothStateAfter sch (n + 1)).smoothing_alpha =
          (update_smoothing sch (smoothStateAfter sch n)).smoothing_alpha := rfl
      rw [hproj, update_smoothing_alpha, hwindow]
      by_cases h1 : s ≤ n
      · by_cases h2 : n < e
        · have hd : min (n + 1) e - min (n + 1) s = (min n e - min n s) + 1 := by
            omega
          rw [if_pos (by simp [h1, h2]), ih, hd]
          push_cast
          ring
        · have hd : min (n + 1) e - min (n + 1) s = min n e - min n s := by
            omega
          rw [if_neg (by simp [h2]), ih, hd]
      · have hd : min (n + 1) e - min (n + 1) s = min n e - min n s := by
          omega
        rw [if_neg (by simp [h1]), ih, hd]

/-- C1 counterexample: three environments, each constructed without
`is_test` through `initSmoothing`, on which the claim as stated fails.
First, with `final_alpha = -1` the coefficient strictly decreases at the
first reset.  Second, with `stop_after < start_after` (derived stop
episode 2, start episode 5) the coefficient is `0 ≠ final_alpha = 1`
when the episode count reaches the stop episode.  Third, with a negative
`start_after` (derived start episode `-5`, stop episode 5) the
coefficient is `1/2 ≠ final_alpha = 1` at the stop episode and stays
there. -/
theorem c1_smoothing_claim_counterexample :
    (initSmoothing (SmoothingParams.mk 10 0 (-1) 1 false) =
        .ok (SmoothingSchedule.mk 0 (some 10) 0 (-(1/10))) ∧
      (smoothStateAfter (SmoothingSchedule.mk 0 (some 10) 0 (-(1/10))) 1).smoothing_alpha <
        (smoothStateAfter (SmoothingSchedule.mk 0 (some 10) 0 (-(1/10))) 0).smoothing_alpha) ∧
    (initSmoothing (SmoothingParams.mk 10 (1/2) 1 (1/5) false) =
        .ok (SmoothingSchedule.mk 5 (some 2) 0 (-(1/3))) ∧
      (smoothStateAfter (SmoothingSchedule.mk 5 (some 2) 0 (-(1/3))) 2).smoothing_alpha ≠ 1) ∧
    (initSmoothing (SmoothingParams.mk 10 (-(1/2)) 1 (1/2) false) =
        .ok (SmoothingSchedule.mk (-5) (some 5) 0 (1/10)) ∧
      (smoothStateAfter (SmoothingSchedule.mk (-5) (some 5) 0 (1/10)) 5).smoothing_alpha ≠ 1 ∧
      (smoothStateAfter (SmoothingSchedule.mk (-5) (some 5) 0 (1/10)) 6).smoothing_alpha ≠ 1) := by
  refine ⟨⟨?_, ?_⟩, ⟨?_, ?_⟩, ⟨?_, ?_, ?_⟩⟩ <;>
    norm_num [initSmoothing, pyInt, smoothStateAfter, resetSmoothing,
      update_smoothing, withinSmoothingWindow]

/-- C1 amended: for an environment constructed without `is_test` whose
derived schedule satisfies `0 ≤ smoothing_start_episode <
smoothing_stop_episode` and whose `final_alpha` is nonnegative, the
smoothing coefficient after `reset()` is non-decreasing across episodes,
equals `final_alpha` exactly once the episode count reaches the
stop episode, and remains constant thereafter. -/
theorem c1_smoothing_schedule (p : SmoothingParams) (sch : SmoothingSchedule)
    (s e : ℕ)
    (htest : p.is_test = false)
    (hinit : initSmoothing p = .ok sch)
    (hs : sch.smoothing_start_episode = (s : ℤ))
    (he : sch.smoothing_stop_episode = some ((e : ℕ) : ℤ))
    (hse : s < e)
    (hfa : 0 ≤ p.final_alpha) :
    (∀ k : ℕ, (smoothStateAfter sch k).smoothing_alpha ≤
        (smoothStateAfter sch (k + 1)).smoothing_alpha) ∧
    (∀ k : ℕ, e ≤ k →
        (smoothStateAfter sch k).smoothing_alpha = p.final_alpha) := by
  rw [initSmoothing, if_neg (by simp [htest])] at hinit
  simp only [] at hinit
  split at hinit
  · exact absurd hinit (by simp)
  · rw [Except.ok.injEq] at hinit
    have halpha : sch.smoothing_alpha = 0 := by rw [← hinit]
    have hstep : sch.smoothing_increase_step =
        p.final_alpha /
          ((pyInt ((p.num_episodes : ℚ) * p.stop_after)
            - pyInt ((p.num_episodes : ℚ) * p.start_after) : ℤ) : ℚ) := by
      rw [← hinit]
    have hstart : pyInt ((p.num_episodes : ℚ) * p.start_after) = (s : ℤ) := by
      rw [← hs, ← hinit]
    have hstop : pyInt ((p.num_episodes : ℚ) * p.stop_after) = (e : ℤ) := by
      have : sch.smoothing_stop_episode =
          some (pyInt ((p.num_episodes : ℚ) * p.stop_after)) := by rw [← hinit]
      rw [he] at this
      exact (Option.some.injEq _ _ ▸ this).symm
    rw [hstart, hstop] at hstep
    have hden : ((e : ℚ) - (s : ℚ)) ≠ 0 := by
      have : (s : ℚ) < (e : ℚ) := by exact_mod_cast hse
      linarith
    have hstep' : sch.smoothing_increase_step = p.final_alpha / ((e : ℚ) - (s : ℚ)) := by
      rw [hstep]
      push_cast
      ring_nf
    have hstepnn : 0 ≤ sch.smoothing_increase_step := by
      rw [hstep']
      apply div_nonneg hfa
      have : (s : ℚ) < (e : ℚ) := by exact_mod_cast hse
      linarith
    constructor
    · intro k
      rw [smoothStateAfter_alpha sch s e hs he (le_of_lt hse) k,
        smoothStateAfter_alpha sch s e hs he (le_of_lt hse) (k + 1)]
      have hmono : (min k e - min k s : ℕ) ≤ (min (k + 1) e - min (k + 1) s : ℕ) := by
        omega
      have : ((min k e - min k s : ℕ) : ℚ) ≤ ((min (k + 1) e - min (k + 1) s : ℕ) : ℚ) := by
        exact_mod_cast hmono
      nlinarith [hstepnn, this]
    · intro k hk
      rw [smoothStateAfter_alpha sch s e hs he (le_of_lt hse) k, halpha, hstep']
      have hd : (min k e - min k s : ℕ) = e - s := by omega
      rw [hd]
      have hcast : (((e - s : ℕ)) : ℚ) = (e : ℚ) - (s : ℚ) := by
        push_cast [Nat.cast_sub (le_of_lt hse)]
        ring
      rw [hcast, zero_add, div_mul_cancel₀ _ hden]

/-- Witness for C1 amended: `num_episodes = 10`, `start_after = 0`,
`final_alpha = 1`, `stop_after = 1` gives start episode 0, stop episode
10, increase step `1/10`; the coefficient grows to exactly `1` at
episode 10. -/
theorem c1_smoothing_schedule_witness :
    (smoothStateAfter (SmoothingSchedule.mk 0 (some 10) 0 (1/10)) 3).smoothing_alpha ≤
      (smoothStateAfter (SmoothingSchedule.mk 0 (some 10) 0 (1/10)) 4).smoothing_alpha ∧
    (smoothStateAfter (SmoothingSchedule.mk 0 (some 10) 0 (1/10)) 10).smoothing_alpha = 1 ∧
    (smoothStateAfter (SmoothingSchedule.mk 0 (some 10) 0 (1/10)) 11).smoothing_alpha = 1 := by
  have h := c1_smoothing_schedule (SmoothingParams.mk 10 0 1 1 false)
    (SmoothingSchedule.mk 0 (some 10) 0 (1/10)) 0 10 rfl
    (by norm_num [initSmoothing, pyInt]) rfl rfl (by norm_num) (by norm_num)
  exact ⟨h.1 3, h.2 10 (by norm_num), h.2 11 (by norm_num)⟩

end TriFinger
